import Mathlib

/-!
Shallow embedding of the hybrid retrieval and ranking engine
(`rag_backend/vector_store.py`, `rag_backend/embeddings.py`,
`rag_backend/rag_chain.py`, `rag_backend/agent.py`).

Conventions of the embedding:
* Python floats are modelled as rationals (`ℚ`); every float literal used by
  the engine (0.6, 0.4, 1.2, 0.9, …) is an exact rational, and the verified
  claims are order/threshold claims, not rounding claims.
* Python dictionaries coming from `properties.json` are modelled as a record
  (`Doc`) with `Option` fields wherever the source reads them through
  `dict.get` with a default.
* The sentence-transformer embedder and the FAISS inner-product index are
  external components: a query's semantic score vector is an explicit
  parameter (`sem : Nat → ℚ`, the inner product of the embedded query with
  each stored document vector), and a fallible embedder is a function into
  `Except`.
* Python's `sorted(..., reverse=True)` (a stable descending sort) is
  modelled by the stable insertion sort `sortDescBy` below.
-/

/- Batteries marks the arithmetic of `Rat` `@[irreducible]`; restore
unfolding so that concrete runs of the engine can be checked by `decide`
(the kernel ignores reducibility attributes, so this only affects
elaboration). -/
attribute [local semireducible] Rat.mul Rat.inv Rat.add Rat.sub Rat.ofScientific

namespace Vestgency

/-! ### String helpers (Python `str.lower`, `in`, `split`) -/

/-- Python `str.lower` restricted to the character ranges that actually occur
in the corpus and keyword tables: ASCII letters and the Latin-1 accented
letters (`À`–`Þ`, except `×`). -/
def pyLowerChar (c : Char) : Char :=
  if 'A' ≤ c ∧ c ≤ 'Z' then Char.ofNat (c.toNat + 32)
  else if 0xC0 ≤ c.toNat ∧ c.toNat ≤ 0xDE ∧ c.toNat ≠ 0xD7 then Char.ofNat (c.toNat + 32)
  else c

def pyLower (s : String) : String :=
  String.mk (s.toList.map pyLowerChar)

/-- Substring test on character lists: `needle` occurs contiguously in `hay`. -/
def listInfix (needle : List Char) : List Char → Bool
  | [] => needle.isEmpty
  | c :: cs => needle.isPrefixOf (c :: cs) || listInfix needle cs

/-- Python `needle in hay` for strings. -/
def pyIn (needle hay : String) : Bool :=
  listInfix needle.toList hay.toList

/-- Python `str.split()` with no separator: split on runs of whitespace,
discarding empty pieces. -/
def splitWSAux : List Char → List Char → List String
  | [], cur => if cur.isEmpty then [] else [String.mk cur.reverse]
  | c :: cs, cur =>
    if c.isWhitespace then
      if cur.isEmpty then splitWSAux cs [] else String.mk cur.reverse :: splitWSAux cs []
    else splitWSAux cs (c :: cur)

def pySplit (s : String) : List String :=
  splitWSAux s.toList []

/-! ### Stable descending sort (Python `sorted(..., key=…, reverse=True)`) -/

/-- Insert `a` into a list sorted descending by `f`, before the first element
whose key is `≤ f a`.  Processing the original list right-to-left with this
insertion reproduces Python's stable descending sort. -/
def insertDesc (f : α → ℚ) (a : α) : List α → List α
  | [] => [a]
  | b :: l => if f b ≤ f a then a :: b :: l else b :: insertDesc f a l

/-- Stable sort, descending by key `f`. -/
def sortDescBy (f : α → ℚ) : List α → List α
  | [] => []
  | a :: l => insertDesc f a (sortDescBy f l)

/-! ### Configuration constants (`config.py`) -/

def DEFAULT_TOP_K : Nat := 20
def MIN_SIMILARITY_THRESHOLD : ℚ := 0.25
def EXACT_MATCH_BOOST : ℚ := 2.0
def PARTIAL_MATCH_BOOST : ℚ := 1.5

/-! ### Data model -/

/-- A property record from `properties.json`.  Fields the source reads via
`prop.get(k)` / `prop.get(k, default)` are `Option`s (`none` = key absent). -/
structure Doc where
  id : String
  name : Option String := none
  location : Option String := none
  type : Option String := none
  category : Option String := none
  city : Option String := none
  description : Option String := none
  features : Option (List String) := none
  smartTags : Option (List String) := none
  beds : Option Nat := none
  baths : Option Nat := none
  area : Option String := none
  price : Option String := none
  priceNumeric : Option ℚ := none
deriving DecidableEq, Repr, Inhabited

/-- The sparse filter dictionary produced by
`PropertyVectorStore._extract_filters_from_query`.  A key is absent iff the
field is `none` (for `features`: iff the list is empty, matching the
`if detected_features:` guard in the source). -/
structure Filters where
  type : Option String := none
  category : Option String := none
  beds : Option Nat := none
  location : Option String := none
  features : List String := []
deriving DecidableEq, Repr, Inhabited

/-- Python truthiness of the filters dict (`if filters:`). -/
def Filters.isEmpty (f : Filters) : Bool :=
  f.type.isNone && f.category.isNone && f.beds.isNone && f.location.isNone && f.features.isEmpty

/-- A search-result record: a copy of the property dict plus the transient
underscore-prefixed annotations the pipeline adds to the copy.  Optional
annotations are `none` when the corresponding key was never set. -/
structure RDoc where
  doc : Doc
  score : ℚ                       -- "_score", set by every search path
  matchType : String              -- "_match_type"
  semanticScore : Option ℚ := none   -- "_semantic_score" (hybrid only)
  keywordScore : Option ℚ := none    -- "_keyword_score" (hybrid only)
  filtersMatched : Option Filters := none  -- "_filters_matched" (hybrid only)
  filterMatches : Option Nat := none -- "_filter_matches" (workflow FilterResults)
  relevance : Option ℚ := none       -- "_relevance" (workflow RankResults)
  finalScore : Option ℚ := none      -- "_final_score" (workflow RankResults)
deriving DecidableEq, Repr, Inhabited

/-! ### Filter extraction (`_extract_filters_from_query`) -/

def typeMapping : List (String × String) :=
  [("villa", "Villa"), ("appartement", "Appartement"), ("appart", "Appartement"),
   ("bureau", "Bureau"), ("magasin", "Magasin"), ("boutique", "Magasin"),
   ("terrain", "Terrain"), ("entrepôt", "Entrepôt"), ("entrepot", "Entrepôt"),
   ("studio", "Studio"), ("duplex", "Duplex"), ("riad", "Riad"),
   ("ferme", "Ferme"), ("immeuble", "Immeuble")]

def rentWords : List String := ["louer", "location", "à louer", "bail", "loue"]

def saleWords : List String := ["acheter", "vendre", "vente", "à vendre", "achat"]

def knownLocations : List String :=
  ["anfa", "californie", "maarif", "racine", "gauthier",
   "bouskoura", "ain diab", "corniche", "triangle d'or",
   "bourgogne", "palmier", "oasis", "val fleuri", "oulfa",
   "hay hassani", "sidi maarouf", "lissasfa", "polo"]

def featureKeywords : List (String × String) :=
  [("meublé", "Meublé"), ("meuble", "Meublé"), ("piscine", "Piscine"),
   ("terrasse", "Terrasse"), ("jardin", "Jardin"), ("parking", "Parking"),
   ("garage", "Garage"), ("ascenseur", "Ascenseur"), ("neuf", "Neuf"),
   ("climatisation", "Climatisation"), ("clim", "Climatisation")]

/-- First mapping entry whose keyword occurs in the query (Python
`for keyword, prop_type in mapping.items(): if keyword in query_lower`). -/
def firstMatch (ql : String) : List (String × String) → Option String
  | [] => none
  | (kw, v) :: rest => if pyIn kw ql then some v else firstMatch ql rest

def firstContained (ql : String) : List String → Option String
  | [] => none
  | loc :: rest => if pyIn loc ql then some loc else firstContained ql rest

/-- Word character for the regex `\b` boundary (`re.UNICODE` default: ASCII
alphanumerics, underscore, and the accented letters of the corpus). -/
def isWordChar (c : Char) : Bool :=
  c.isAlphanum || c = '_' || c.toNat ≥ 0xC0

/-- Digits of a leading `\d+` run, and the remaining characters. -/
def digitSpan (cs : List Char) : List Char × List Char :=
  (cs.takeWhile Char.isDigit, cs.dropWhile Char.isDigit)

def natOfDigits (ds : List Char) : Nat :=
  ds.foldl (fun n c => n * 10 + (c.toNat - '0'.toNat)) 0

/-- `re.search` for a pattern of shape `(\d+)\s*<tail>`: scan start positions
left to right; at a digit, the greedy `\d+` takes the maximal run, `\s*`
skips whitespace, and `tailCheck` tests the literal tail (backtracking into
the digit run or the whitespace can never succeed because the tails start
with a non-digit, non-whitespace letter). -/
def regexBedSearch (tailCheck : List Char → Bool) : List Char → Option Nat
  | [] => none
  | c :: cs =>
    if c.isDigit then
      let (ds, rest) := digitSpan (c :: cs)
      let rest2 := rest.dropWhile Char.isWhitespace
      if tailCheck rest2 then some (natOfDigits ds) else regexBedSearch tailCheck cs
    else regexBedSearch tailCheck cs

/-- Tail of pattern `(\d+)\s*chambre`. -/
def tailChambre (cs : List Char) : Bool := "chambre".toList.isPrefixOf cs

/-- Tail of pattern `(\d+)\s*ch\b`. -/
def tailCh (cs : List Char) : Bool :=
  "ch".toList.isPrefixOf cs &&
    (match cs.drop 2 with
     | [] => true
     | d :: _ => !isWordChar d)

/-- Tail of pattern `(\d+)\s*pièce`. -/
def tailPiece (cs : List Char) : Bool := "pièce".toList.isPrefixOf cs

/-- Tail of pattern `(\d+)\s*bedroom`. -/
def tailBedroom (cs : List Char) : Bool := "bedroom".toList.isPrefixOf cs

/-- The four bedroom regexes, tried in order; the first pattern that matches
anywhere wins (`for pattern in bed_patterns: … break`). -/
def extractBeds (ql : String) : Option Nat :=
  let cs := ql.toList
  match regexBedSearch tailChambre cs with
  | some n => some n
  | none =>
    match regexBedSearch tailCh cs with
    | some n => some n
    | none =>
      match regexBedSearch tailPiece cs with
      | some n => some n
      | none => regexBedSearch tailBedroom cs

/-- `PropertyVectorStore._extract_filters_from_query`. -/
def extractFilters (query : String) : Filters :=
  let ql := pyLower query
  let ftype := firstMatch ql typeMapping
  let fcat :=
    if rentWords.any (fun w => pyIn w ql) then some "RENT"
    else if saleWords.any (fun w => pyIn w ql) then some "SALE"
    else none
  let fbeds := extractBeds ql
  let floc := firstContained ql knownLocations
  let ffeats := (featureKeywords.filter (fun p => pyIn p.1 ql)).map Prod.snd
  { type := ftype, category := fcat, beds := fbeds, location := floc, features := ffeats }

/-! ### Hard filters over the corpus (`_apply_filters`) -/

/-- One property satisfies every predicate present in the filter set
(the body of the loop in `_apply_filters`). -/
def docMatchesFilters (f : Filters) (d : Doc) : Bool :=
  (match f.type with | none => true | some t => d.type == some t) &&
  (match f.category with | none => true | some c => d.category == some c) &&
  (match f.beds with | none => true | some b => decide (b ≤ (d.beds.getD 0))) &&
  (match f.location with
   | none => true
   | some loc => pyIn (pyLower loc) (pyLower (d.location.getD ""))) &&
  (match f.features with
   | [] => true
   | fs => fs.all (fun req => ((d.features.getD []).map pyLower).contains (pyLower req)))

/-- `_apply_filters`: indices of the matching properties, in corpus order. -/
def applyFilters (props : List Doc) (f : Filters) : List Nat :=
  (props.enum.filter (fun p => docMatchesFilters f p.2)).map Prod.fst

/-! ### Keyword search (`_keyword_search`) -/

/-- Lexical score of one property against the query (loop body of
`_keyword_search`). -/
def keywordScoreOf (ql : String) (terms : List String) (d : Doc) : ℚ :=
  let name := pyLower (d.name.getD "")
  let location := pyLower (d.location.getD "")
  let ptype := pyLower (d.type.getD "")
  let descr := pyLower (d.description.getD "")
  let city := pyLower (d.city.getD "")
  let feats := pyLower (String.intercalate " " (d.features.getD []))
  let fullScore :=
    (if pyIn ql name then EXACT_MATCH_BOOST * 2 else 0) +
    (if pyIn ql location then EXACT_MATCH_BOOST * 1.5 else 0) +
    (if pyIn ql ptype then EXACT_MATCH_BOOST else 0)
  let termScore := fun (t : String) =>
    if t.length < 2 then 0 else
      (if pyIn t name then PARTIAL_MATCH_BOOST else 0) +
      (if pyIn t location then PARTIAL_MATCH_BOOST * 0.9 else 0) +
      (if pyIn t ptype then PARTIAL_MATCH_BOOST * 0.8 else 0) +
      (if pyIn t feats then PARTIAL_MATCH_BOOST * 0.7 else 0) +
      (if pyIn t descr then PARTIAL_MATCH_BOOST * 0.5 else 0) +
      (if pyIn t city then PARTIAL_MATCH_BOOST * 0.6 else 0)
  fullScore + (terms.map termScore).sum

/-- `_keyword_search`: `(index, score)` pairs with positive score, sorted by
score descending (stable), truncated to `top_k` (default 50). -/
def keywordSearch (query : String) (props : List Doc) (top_k : Nat := 50) :
    List (Nat × ℚ) :=
  let ql := pyLower query
  let terms := pySplit ql
  let scored := props.enum.map (fun p => (p.1, keywordScoreOf ql terms p.2))
  let positive := scored.filter (fun p => 0 < p.2)
  (sortDescBy Prod.snd positive).take top_k

/-! ### FAISS index search (`IndexFlatIP.search`)

The index is exact inner-product search: given the per-document scores it
returns the `k` best `(index, score)` pairs, best first (ties in index
order). -/

def faissSearch (scores : List ℚ) (k : Nat) : List (Nat × ℚ) :=
  (sortDescBy Prod.snd scores.enum).take k

/-! ### Hybrid search (`PropertyVectorStore.hybrid_search`) -/

/-- Step 2 of `hybrid_search`: the candidate pool.  Hard filters are applied
first; if they match nothing the pool falls back to the whole corpus. -/
def candidatePool (props : List Doc) (f : Filters) : List Nat :=
  if f.isEmpty then List.range props.length
  else
    let m := applyFilters props f
    if m.isEmpty then List.range props.length else m

/-- Step 6 of `hybrid_search` (the rescue rule), one iteration of the loop
over the semantic scores: admit an index outside the candidate pool when its
semantic score exceeds 0.5, scored without the filter boost. -/
def rescueStep (kwNorm : Nat → ℚ) (acc : List (Nat × ℚ)) (p : Nat × ℚ) :
    List (Nat × ℚ) :=
  if acc.all (fun q => q.1 ≠ p.1) ∧ (1 : ℚ)/2 < p.2 then
    acc ++ [(p.1, p.2 * 0.6 + kwNorm p.1 * 0.4)]
  else acc

/-- `hybrid_search` with the embedder already applied: `sem i` is the inner
product of the embedded query with document `i`'s stored vector (the source
searches the whole index, so every in-range index has a semantic score). -/
def hybridSearchPure (props : List Doc) (sem : Nat → ℚ) (query : String)
    (top_k : Nat := DEFAULT_TOP_K) : List RDoc :=
  let n := props.length
  let filters := extractFilters query
  let candidates := candidatePool props filters
  let kwList := keywordSearch query props
  let kwLookup := fun (i : Nat) => ((List.lookup i kwList).getD 0)
  let maxKw := ((kwList.map Prod.snd).max?).getD 1
  let kwNorm := fun (i : Nat) => if 0 < maxKw then kwLookup i / maxKw else 0
  let semGet := fun (i : Nat) => if i < n then sem i else 0
  let semList := faissSearch ((List.range n).map sem) n
  let boost : ℚ := if filters.isEmpty then 1 else 1.2
  let combinedCand :=
    candidates.map (fun i => (i, (semGet i * 0.6 + kwNorm i * 0.4) * boost))
  -- Step 6: rescue high-semantic documents outside the candidate pool,
  -- iterating the semantic results in index-search order.
  let combinedAll := semList.foldl (rescueStep kwNorm) combinedCand
  let sortedPairs := sortDescBy Prod.snd combinedAll
  ((sortedPairs.take top_k).filter
      (fun p => !(p.2 < MIN_SIMILARITY_THRESHOLD * 0.5))).map
    (fun p =>
      { doc := props.getD p.1 default
        score := p.2
        matchType := "hybrid"
        semanticScore := some (semGet p.1)
        keywordScore := some (kwLookup p.1)
        filtersMatched := some (extractFilters query) })

/-- `semantic_search` with the embedder already applied. -/
def semanticSearchPure (props : List Doc) (sem : Nat → ℚ)
    (top_k : Nat := DEFAULT_TOP_K) (min_score : ℚ := MIN_SIMILARITY_THRESHOLD) :
    List RDoc :=
  let pairs := faissSearch ((List.range props.length).map sem) top_k
  (pairs.filter (fun p => !(p.2 < min_score))).map
    (fun p => { doc := props.getD p.1 default, score := p.2, matchType := "semantic" })

/-! ### The vector store object and its operations -/

structure VectorStore where
  properties : List Doc := []
  isInitialized : Bool := false
deriving DecidableEq, Repr, Inhabited

/-- `PropertyVectorStore.__init__`: empty corpus, not initialized. -/
def VectorStore.mkNew : VectorStore := {}

/-- `build_index` after a successful embedding pass: loads the corpus and
sets `is_initialized = True` (embedding generation and caching are external
to the core and cannot fail into this state). -/
def buildIndex (docs : List Doc) (_s : VectorStore) : VectorStore :=
  { properties := docs, isInitialized := true }

inductive EmbedError where
  | providerFailure
deriving DecidableEq, Repr

inductive SearchError where
  | notInitialized
  | embeddingFailure (e : EmbedError)
deriving DecidableEq, Repr

deriving instance DecidableEq for Except

/-- The external embedder composed with the index: for a query it yields the
per-document inner-product function, or fails. -/
def Embedder : Type := String → Except EmbedError (Nat → ℚ)

/-- `hybrid_search` as called on the store: raises (returns an error) when
the store is not initialized, and propagates any embedding failure — the
source wraps `embed_query` in no handler, so the exception escapes.  (The
keyword/filter steps that precede the `embed_query` call in the source are
pure, so running the embedder first is observationally identical.) -/
def hybridSearchExc (embed : Embedder) (s : VectorStore) (query : String)
    (top_k : Nat := DEFAULT_TOP_K) : Except SearchError (List RDoc) :=
  if !s.isInitialized then .error .notInitialized
  else
    match embed query with
    | .error e => .error (.embeddingFailure e)
    | .ok sem => .ok (hybridSearchPure s.properties sem query top_k)

/-- `semantic_search` as called on the store. -/
def semanticSearchExc (embed : Embedder) (s : VectorStore) (query : String)
    (top_k : Nat := DEFAULT_TOP_K) : Except SearchError (List RDoc) :=
  if !s.isInitialized then .error .notInitialized
  else
    match embed query with
    | .error e => .error (.embeddingFailure e)
    | .ok sem => .ok (semanticSearchPure s.properties sem top_k)

/-- The `"keyword"` branch of `search`: direct keyword scoring over the
stored properties (the source performs no initialization check here). -/
def keywordSearchMode (s : VectorStore) (query : String) (top_k : Nat) :
    List RDoc :=
  (keywordSearch query s.properties top_k).map
    (fun p => { doc := s.properties.getD p.1 default, score := p.2, matchType := "keyword" })

/-- The operations that touch the store. -/
inductive StoreOp where
  | build (docs : List Doc)
  | hybrid (q : String) (k : Nat)
  | semantic (q : String) (k : Nat)
  | keyword (q : String) (k : Nat)
deriving DecidableEq, Repr

/-- Effect of each operation on the store, plus its search output.  Search
methods only read `self.properties` (results are `.copy()`-ed dicts), so
the store component is returned unchanged. -/
def applyOp (embed : Embedder) : StoreOp → VectorStore →
    VectorStore × Except SearchError (List RDoc)
  | .build docs, s => (buildIndex docs s, .ok [])
  | .hybrid q k, s => (s, hybridSearchExc embed s q k)
  | .semantic q k, s => (s, semanticSearchExc embed s q k)
  | .keyword q k, s => (s, .ok (keywordSearchMode s q k))

/-! ### Query expansion (`QueryExpander`, `embeddings.py`) -/

def SYNONYMS : List (String × List String) :=
  [("appartement", ["appart", "flat", "logement", "résidence"]),
   ("villa", ["maison", "demeure", "propriété", "pavillon"]),
   ("bureau", ["office", "local professionnel", "espace de travail"]),
   ("magasin", ["boutique", "commerce", "local commercial", "shop"]),
   ("luxe", ["haut standing", "prestige", "premium", "haut de gamme"]),
   ("meublé", ["équipé", "aménagé", "furnished"]),
   ("terrasse", ["balcon", "rooftop", "extérieur"]),
   ("piscine", ["pool", "bassin"]),
   ("garage", ["parking", "stationnement", "place de parking"]),
   ("neuf", ["nouveau", "récent", "moderne", "contemporain"]),
   ("centre ville", ["centre", "downtown", "hyper centre"]),
   ("calme", ["tranquille", "paisible", "résidentiel"]),
   ("vue mer", ["vue océan", "front de mer", "bord de mer"]),
   ("jardin", ["espace vert", "terrain", "extérieur"]),
   ("lumineux", ["clair", "ensoleillé", "baigné de lumière"]),
   ("spacieux", ["grand", "vaste", "généreux"]),
   ("standing", ["luxe", "haut de gamme", "prestige"]),
   ("location", ["louer", "à louer", "bail"]),
   ("achat", ["vente", "acheter", "à vendre"]),
   ("chambres", ["pièces", "ch", "bedroom"])]

def LOCATION_ALIASES : List (String × String) :=
  [("casa", "casablanca"), ("anfa", "anfa"), ("californie", "californie"),
   ("bouskoura", "bouskoura"), ("ain diab", "ain diab"), ("maarif", "maarif"),
   ("racine", "racine"), ("gauthier", "gauthier"),
   ("triangle d'or", "triangle d'or"), ("corniche", "corniche")]

/-- `expanded.append(x)` guarded by `if x not in expanded`. -/
def addCandidate (acc : List String) (s : String) : List String :=
  if s ∈ acc then acc else acc ++ [s]

/-- `QueryExpander.expand_query`. -/
def expandQuery (query : String) : List String :=
  let ql := pyLower query
  let afterSyn := SYNONYMS.foldl (fun acc p =>
      if pyIn p.1 ql then
        (p.2.take 2).foldl (fun a syn => addCandidate a (ql.replace p.1 syn)) acc
      else acc) [query]
  let afterLoc := LOCATION_ALIASES.foldl (fun acc p =>
      if pyIn p.1 ql && p.1 != p.2 then addCandidate acc (ql.replace p.1 p.2)
      else acc) afterSyn
  afterLoc.take 4

/-! ### Intent classification (`IntentClassifier`, `rag_chain.py`) -/

def INTENTS : List (String × List String) :=
  [("buy", ["acheter", "achat", "vendre", "vente", "à vendre", "investir", "investissement"]),
   ("rent", ["louer", "location", "à louer", "bail", "mensuel", "mois"]),
   ("search_type", ["villa", "appartement", "bureau", "magasin", "terrain", "studio"]),
   ("search_location", ["anfa", "californie", "maarif", "bouskoura", "où", "quartier", "zone"]),
   ("search_features", ["meublé", "piscine", "terrasse", "jardin", "parking", "neuf"]),
   ("search_specs", ["chambre", "pièce", "m²", "surface", "grand", "spacieux"]),
   ("similar", ["similaire", "comme", "ressemblant", "même genre", "du même type"]),
   ("recommendations", ["recommander", "suggérer", "conseiller", "proposer", "meilleur"])]

/-- `IntentClassifier.classify`: keyword-hit counts normalized per table;
`("general", 0.5)` when no table scores; otherwise arg-max (first maximum in
table order, like Python's `max` over dict keys) with confidence
`min(2 * best, 1)`. -/
def classifyIntent (query : String) : String × ℚ :=
  let ql := pyLower query
  let scores := INTENTS.foldl (fun (acc : List (String × ℚ)) p =>
      let c := (p.2.filter (fun kw => pyIn kw ql)).length
      if 0 < c then acc ++ [(p.1, (c : ℚ) / p.2.length)] else acc) []
  match scores with
  | [] => ("general", 0.5)
  | s0 :: rest =>
    let best := rest.foldl (fun b p => if b.2 < p.2 then p else b) s0
    (best.1, min (best.2 * 2) 1)

/-! ### Relevance scoring (`RelevanceScorer.calculate_relevance`) -/

/-- Diagnostic relevance of a result against the query's extracted filters;
with no structured filters it falls back to the record's `_score` (present
on every record the pipeline produces). -/
def calculateRelevance (query : String) (r : RDoc) : ℚ :=
  let f := extractFilters query
  let checks : List Bool :=
    (match f.type with | none => [] | some t => [r.doc.type == some t]) ++
    (match f.category with | none => [] | some c => [r.doc.category == some c]) ++
    (match f.location with
     | none => []
     | some loc => [pyIn (pyLower loc) (pyLower (r.doc.location.getD ""))]) ++
    (match f.beds with | none => [] | some b => [decide (b ≤ r.doc.beds.getD 0)]) ++
    (f.features.map (fun feat =>
      ((r.doc.features.getD []).map pyLower).contains (pyLower feat)))
  if checks.length = 0 then r.score
  else ((checks.filter id).length : ℚ) / checks.length

/-! ### The search workflow (`PropertySearchAgent`, `agent.py`) -/

/-- The per-call workflow state (`AgentState`). -/
structure SearchState where
  query : String
  intent : String := ""
  confidence : ℚ := 0
  extractedFilters : Filters := {}
  expandedQueries : List String := []
  searchResults : List RDoc := []
  refinedResults : List RDoc := []
  finalResults : List RDoc := []
  suggestions : List String := []
  explanation : String := ""
  iteration : Nat := 0
  shouldRefine : Bool := false
deriving DecidableEq, Repr, Inhabited

/-- The immutable per-call context: the corpus snapshot and the semantic
score oracle (embedder composed with the index) for each query string. -/
structure Env where
  props : List Doc
  sem : String → Nat → ℚ

/-- `_analyze_query`. -/
def analyzeNode (st : SearchState) : SearchState :=
  let ic := classifyIntent st.query
  { st with intent := ic.1, confidence := ic.2,
            extractedFilters := extractFilters st.query,
            iteration := 0, shouldRefine := false }

/-- `_expand_query`. -/
def expandNode (st : SearchState) : SearchState :=
  { st with expandedQueries := expandQuery st.query }

/-- One supplementary sub-search of `_execute_search`: run `hybrid_search`
with `top_k=10` on a non-original expansion. -/
def expansionStep (env : Env) (query : String) (acc : List RDoc) (q2 : String) :
    List RDoc :=
  if q2 ≠ query then acc ++ hybridSearchPure env.props (env.sem q2) q2 10 else acc

/-- The merge loop of `_execute_search`: append an expansion hit whose
document id is unseen, with a 0.9 score penalty. -/
def mergeStep (acc : List RDoc) (r : RDoc) : List RDoc :=
  if acc.any (fun x => x.doc.id == r.doc.id) then acc
  else acc ++ [{ r with score := r.score * 0.9 }]

/-- `_execute_search`: hybrid search on the query (top_k 30 on the first
pass, 50 after), plus hybrid search on up to 2 non-original expansions with
top_k 10, merged by document id (first occurrence wins) with a 0.9 score
penalty on merged-in expansion hits; increments the iteration counter. -/
def executeNode (env : Env) (st : SearchState) : SearchState :=
  let top_k := if st.iteration == 0 then 30 else 50
  let results := hybridSearchPure env.props (env.sem st.query) st.query top_k
  let expanded := (st.expandedQueries.take 2).foldl (expansionStep env st.query) []
  let merged := expanded.foldl mergeStep results
  { st with searchResults := merged, iteration := st.iteration + 1 }

/-- The four hard predicates `_filter_results` re-applies (the extracted
`features` predicate is *not* among them in the source). -/
def hardMatch (f : Filters) (r : RDoc) : Bool :=
  (match f.type with | none => true | some t => r.doc.type == some t) &&
  (match f.category with | none => true | some c => r.doc.category == some c) &&
  (match f.beds with | none => true | some b => decide (b ≤ r.doc.beds.getD 0)) &&
  (match f.location with
   | none => true
   | some loc => pyIn (pyLower loc) (pyLower (r.doc.location.getD "")))

/-- `sum(1 for k in filters.keys() if k in ["type","category","beds","location"])`. -/
def hardCount (f : Filters) : Nat :=
  (if f.type.isSome then 1 else 0) + (if f.category.isSome then 1 else 0) +
  (if f.beds.isSome then 1 else 0) + (if f.location.isSome then 1 else 0)

def annotateMatch (f : Filters) (r : RDoc) : RDoc :=
  { r with filterMatches := some (hardCount f) }

/-- Core of `_filter_results`.  In the source the surviving dicts are
mutated in place (they gain `"_filter_matches"`), so the
`r not in filtered` membership test — dict-value equality — sees the
annotated values through `results` too; `post` reproduces that view. -/
def filterResults (results : List RDoc) (f : Filters) : List RDoc :=
  if f.isEmpty then results
  else
    let filtered := (results.filter (hardMatch f)).map (annotateMatch f)
    if filtered.length < 5 && filtered.length < results.length then
      let post := results.map (fun r => if hardMatch f r then annotateMatch f r else r)
      let fallback := post.filter (fun r => !(filtered.contains r))
      filtered ++ (sortDescBy RDoc.score fallback).take (5 - filtered.length)
    else filtered

/-- `_filter_results` as a workflow node. -/
def filterNode (st : SearchState) : SearchState :=
  { st with refinedResults := filterResults st.searchResults st.extractedFilters }

/-- `_rank_results`: multiplicative boosts over the base `_score`, stable
descending sort on the final score, and the refine decision
`iteration < 2 and len(results) < 3 and confidence < 0.5`. -/
def rankNode (st : SearchState) : SearchState :=
  let ranked := st.refinedResults.map (fun r =>
    let base := r.score
    let boost1 : ℚ :=
      if st.intent == "buy" && r.doc.category == some "SALE" then 1.2
      else if st.intent == "rent" && r.doc.category == some "RENT" then 1.2
      else 1
    let boost2 := boost1 * (1 + 0.1 * ((r.filterMatches.getD 0 : Nat) : ℚ))
    let rel := calculateRelevance st.query r
    let boost3 := boost2 * (if (r.doc.smartTags.getD []).isEmpty then 1 else 1.1)
    let completeness : ℚ :=
      (((if r.doc.beds.getD 0 ≠ 0 then 1 else 0) +
        (if r.doc.baths.getD 0 ≠ 0 then 1 else 0) +
        (if r.doc.area.getD "" ≠ "" then 1 else 0) +
        (if r.doc.description.getD "" ≠ "" then 1 else 0) : ℚ)) / 4
    let boost4 := boost3 * (1 + 0.1 * completeness)
    { r with relevance := some rel, finalScore := some (base * boost4) })
  let sorted := sortDescBy (fun r => r.finalScore.getD 0) ranked
  let refine := decide (st.iteration < 2) && decide (sorted.length < 3) &&
                decide (st.confidence < 0.5)
  { st with refinedResults := sorted, shouldRefine := refine }

/-- Python dict counter update (`d[k] = d.get(k, 0) + 1`), insertion order
preserved. -/
def bumpCount (acc : List (String × Nat)) (k : String) : List (String × Nat) :=
  if acc.any (fun p => p.1 == k) then
    acc.map (fun p => if p.1 == k then (p.1, p.2 + 1) else p)
  else acc ++ [(k, 1)]

/-- `_generate_suggestions`. -/
def suggestionsNode (st : SearchState) : SearchState :=
  let results := st.refinedResults
  let f := st.extractedFilters
  let s1 :=
    if results.length < 5 then
      (if f.beds.isSome then ["Essayez avec moins de chambres"] else []) ++
      (if f.location.isSome then ["Recherchez dans d'autres quartiers"] else []) ++
      (if f.type.isSome then ["Considérez d'autres types de biens"] else [])
    else []
  let s2 :=
    if results.isEmpty then []
    else
      let locCounts := (results.take 10).foldl
        (fun acc r => bumpCount acc (r.doc.location.getD "")) []
      let topLocs := (sortDescBy (fun p => ((p.2 : Nat) : ℚ)) locCounts).take 3
      let locSugs := (topLocs.filter
          (fun p => !(pyIn (pyLower p.1) (pyLower st.query)))).map
        (fun p => let loc := p.1; s!"Biens à {loc}")
      let typeCounts := (results.take 10).foldl
        (fun acc r => bumpCount acc (r.doc.type.getD "")) []
      let topTypes := (sortDescBy (fun p => ((p.2 : Nat) : ℚ)) typeCounts).take 2
      let typeSugs := (topTypes.filter
          (fun p => !(pyIn (pyLower p.1) (pyLower st.query)))).map
        (fun p => let t := p.1; s!"{t}s disponibles")
      locSugs ++ typeSugs
  { st with suggestions := (s1 ++ s2).take 5 }

/-- Round to nearest integer, ties to even (Python's `format` rounding). -/
def roundHalfEven (q : ℚ) : Int :=
  let fl := ⌊q⌋
  let frac := q - fl
  if frac < 1/2 then fl
  else if 1/2 < frac then fl + 1
  else if fl % 2 = 0 then fl else fl + 1

/-- Insert thousands separators into a digit string (for `{:,.0f}`). -/
def groupDigitsAux : Nat → List Char → List Char
  | _, [] => []
  | k, c :: cs =>
    if k = 3 then c :: ',' :: groupDigitsAux 1 cs
    else c :: groupDigitsAux (k + 1) cs

/-- Python `"{:,.0f}".format(q)`. -/
def fmtMoney (q : ℚ) : String :=
  let n := roundHalfEven q
  let digits := (toString n.natAbs).toList
  let grouped := (groupDigitsAux 1 digits.reverse).reverse
  (if n < 0 then "-" else "") ++ String.mk grouped

/-- `_format_output`: truncation to 20 results and the explanation string. -/
def formatNode (st : SearchState) : SearchState :=
  let results := st.refinedResults
  let f := st.extractedFilters
  let e1 :=
    if f.isEmpty then []
    else
      let fParts :=
        (match f.type with | none => [] | some t => [s!"type: {t}"]) ++
        (match f.category with
         | none => []
         | some c => [if c = "SALE" then "à vendre" else "à louer"]) ++
        (match f.beds with | none => [] | some b => [s!"{b}+ chambres"]) ++
        (match f.location with | none => [] | some loc => [s!"à {loc}"]) ++
        (match f.features with
         | [] => []
         | fs => [let fj := String.intercalate ", " fs; s!"avec {fj}"])
      let fd := String.intercalate ", " fParts
      [s!"Recherche: {fd}"]
  let n := results.length
  let e2 := [s!"{n} biens trouvés"]
  let prices := results.filterMap (fun r =>
      let p := r.doc.priceNumeric.getD 0
      if 0 < p then some p else none)
  let e3 :=
    if results.isEmpty then []
    else
      match prices with
      | [] => []
      | p0 :: rest =>
        let mn := fmtMoney (rest.foldl min p0)
        let mx := fmtMoney (rest.foldl max p0)
        if f.category == some "RENT" then [s!"Prix: {mn} - {mx} MAD/mois"]
        else [s!"Prix: {mn} - {mx} MAD"]
  { st with finalResults := results.take 20,
            explanation := String.intercalate " | " (e1 ++ e2 ++ e3) }

/-- One pass around the `execute_search → filter_results → rank_results`
cycle. -/
def loopBody (env : Env) (st : SearchState) : SearchState :=
  rankNode (filterNode (executeNode env st))

/-- The conditional-edge loop: repeat the cycle while `should_refine` is
set.  LangGraph aborts with `GraphRecursionError` when a run exceeds its
recursion limit, so the executor is fuelled and `none` models that error;
the workflow is supposed to stop much earlier through the `iteration < 2`
guard in the refine condition.  Also counts the `ExecuteSearch` passes. -/
def searchLoop (fuel : Nat) (env : Env) (st : SearchState) :
    Option (SearchState × Nat) :=
  match fuel with
  | 0 => none
  | fuel + 1 =>
    let st1 := loopBody env st
    if st1.shouldRefine then
      (searchLoop fuel env st1).map (fun r => (r.1, r.2 + 1))
    else some (st1, 1)

/-- LangGraph's default recursion limit. -/
def RECURSION_LIMIT : Nat := 25

/-- The full workflow: AnalyzeQuery → ExpandQuery → (search cycle) →
GenerateSuggestions → FormatOutput, returning the final state and the
number of `ExecuteSearch` passes (`none` = `GraphRecursionError`). -/
def runWorkflow (env : Env) (query : String) : Option (SearchState × Nat) :=
  let s1 := expandNode (analyzeNode { query := query })
  (searchLoop RECURSION_LIMIT env s1).map
    (fun r => (formatNode (suggestionsNode r.1), r.2))

/-! ### Document text generation (`PropertyEmbedder.create_document_text`) -/

def createDocumentText (p : Doc) : String :=
  let parts1 := match p.name with
    | some nm => if nm ≠ "" then [s!"Bien: {nm}"] else []
    | none => []
  let ptype := p.type.getD ""
  let category := p.category.getD ""
  let categoryFr := if category = "SALE" then "à vendre" else "à louer"
  let parts2 := if ptype ≠ "" then [s!"Type: {ptype} {categoryFr}"] else []
  let location := p.location.getD ""
  let city := p.city.getD "Casablanca"
  let parts3 := if location ≠ "" then [s!"Localisation: {location}, {city}"] else []
  let price := p.price.getD ""
  let parts4 := if price ≠ "" then [s!"Prix: {price}"] else []
  let specs :=
    (match p.beds with
     | some b => if b ≠ 0 then [s!"{b} chambres"] else []
     | none => []) ++
    (match p.baths with
     | some b => if b ≠ 0 then [s!"{b} salles de bain"] else []
     | none => []) ++
    (match p.area with
     | some a => if a ≠ "" then [s!"Surface: {a}"] else []
     | none => [])
  let parts5 :=
    if specs ≠ [] then [let sj := String.intercalate ", " specs; s!"Caractéristiques: {sj}"]
    else []
  let features := p.features.getD []
  let parts6 :=
    if features ≠ [] then [let fj := String.intercalate ", " features; s!"Équipements: {fj}"]
    else []
  let tags := p.smartTags.getD []
  let parts7 :=
    if tags ≠ [] then [let tj := String.intercalate ", " tags; s!"Tags: {tj}"]
    else []
  let descr := p.description.getD ""
  let descrT :=
    if 500 < descr.length then String.mk (descr.toList.take 500) ++ "..." else descr
  let parts8 := if descr ≠ "" then [s!"Description: {descrT}"] else []
  String.intercalate " | "
    (parts1 ++ parts2 ++ parts3 ++ parts4 ++ parts5 ++ parts6 ++ parts7 ++ parts8)

/-! ### The vector index over embedding vectors (`faiss.IndexFlatIP`)

Stored vectors are the embeddings of each document's generated text,
L2-normalized by the external embedder (`normalize_embeddings=True`); a
search computes the inner product of the query vector with every stored
vector and returns the `k` best hits. -/

/-- Inner product of two `d`-dimensional vectors. -/
def dotp (d : Nat) (u v : Fin d → ℚ) : ℚ := ∑ j, u j * v j

/-- `IndexFlatIP.search` on explicit vectors. -/
def indexSearch (d : Nat) (vecs : List (Fin d → ℚ)) (q : Fin d → ℚ)
    (k : Nat) : List (Nat × ℚ) :=
  faissSearch (vecs.map (dotp d q)) k

/-- `build_index`'s embedding matrix: one vector per document, embedding the
generated descriptive text, in corpus order. -/
def buildVectors (d : Nat) (embedText : String → Fin d → ℚ) (docs : List Doc) :
    List (Fin d → ℚ) :=
  docs.map (fun p => embedText (createDocumentText p))

/-! ### Concrete fixtures used to instantiate the theorems -/

def demoDoc1 : Doc :=
  { id := "p1", name := some "maison bleue", location := some "quartier nord",
    type := some "Villa", category := some "SALE" }

def demoProps1 : List Doc := [demoDoc1]

def demoStore1 : VectorStore := { properties := demoProps1, isInitialized := true }

def demoEmbedOk : Embedder := fun _ => .ok (fun _ => 1)

def demoEmbedFail : Embedder := fun _ => .error .providerFailure

def demoEnv : Env := { props := demoProps1, sem := fun _ _ => 1 }

/-- The hybrid result of `demoStore1` on query `"zzz"` with semantic score 1. -/
def demoHybridR : RDoc :=
  { doc := demoDoc1, score := 3/5, matchType := "hybrid",
    semanticScore := some 1, keywordScore := some 0, filtersMatched := some {} }

/-- The semantic result of `demoStore1` on the same scores. -/
def demoSemR : RDoc := { doc := demoDoc1, score := 1, matchType := "semantic" }

/-- The keyword result of `demoStore1` on query `"maison"`. -/
def demoKwR : RDoc := { doc := demoDoc1, score := 11/2, matchType := "keyword" }

/-- The workflow's final result on `demoEnv` and query `"zzz"`. -/
def demoWfR : RDoc :=
  { demoHybridR with relevance := some (3/5), finalScore := some (3/5) }

/-- A unit vector of `ℚ²` (for the round-trip instantiation). -/
def demoVec2 : Fin 2 → ℚ := fun j => if j = 0 then 3/5 else 4/5

def demoEmbed2 : String → Fin 2 → ℚ := fun _ => demoVec2

def demoDocs2 : List Doc := [{ id := "a" }, { id := "b" }]

/-- A featureless result record with a given id and raw score. -/
def cexR (i : String) (s : ℚ) : RDoc :=
  { doc := { id := i }, score := s, matchType := "hybrid" }

/-- Six merged results, none of which carries the `Piscine` feature. -/
def cexResults : List RDoc :=
  [cexR "p1" 6, cexR "p2" 5, cexR "p3" 4, cexR "p4" 3, cexR "p5" 2, cexR "p6" 1]

/-- `_filter_results` as the claim describes it: keep exactly the results
satisfying every extracted predicate — `type`, `category`, min `beds`,
`location` substring *and* required `features` — and backfill to 5 with the
highest-raw-score non-matching results when fewer than 5 survive and
non-matches exist. -/
def filterResultsClaim (results : List RDoc) (f : Filters) : List RDoc :=
  if f.isEmpty then results
  else
    let survivors := (results.filter (fun r => docMatchesFilters f r.doc)).map (annotateMatch f)
    if survivors.length < 5 && survivors.length < results.length then
      let nonmatch := results.filter (fun r => !(docMatchesFilters f r.doc))
      survivors ++ (sortDescBy RDoc.score nonmatch).take (5 - survivors.length)
    else survivors

/-! ## Helper lemmas -/

theorem insertDesc_perm (f : α → ℚ) (a : α) (l : List α) :
    List.Perm (insertDesc f a l) (a :: l) := by
  induction l with
  | nil => simp [insertDesc]
  | cons b t ih =>
    simp only [insertDesc]
    split
    · exact List.Perm.refl _
    · exact (List.Perm.cons b ih).trans (List.Perm.swap a b t)

theorem sortDescBy_perm (f : α → ℚ) (l : List α) : List.Perm (sortDescBy f l) l := by
  induction l with
  | nil => simp [sortDescBy]
  | cons a t ih =>
    exact (insertDesc_perm f a (sortDescBy f t)).trans (List.Perm.cons a ih)

theorem length_sortDescBy (f : α → ℚ) (l : List α) :
    (sortDescBy f l).length = l.length :=
  (sortDescBy_perm f l).length_eq

theorem mem_sortDescBy {f : α → ℚ} {l : List α} {x : α} :
    x ∈ sortDescBy f l ↔ x ∈ l :=
  (sortDescBy_perm f l).mem_iff

theorem pairwise_insertDesc (f : α → ℚ) (a : α) {l : List α}
    (h : List.Pairwise (fun x y => f y ≤ f x) l) :
    List.Pairwise (fun x y => f y ≤ f x) (insertDesc f a l) := by
  induction l with
  | nil => simp [insertDesc]
  | cons b t ih =>
    rw [List.pairwise_cons] at h
    simp only [insertDesc]
    split
    · rename_i hba
      refine List.pairwise_cons.mpr ⟨?_, List.pairwise_cons.mpr h⟩
      intro x hx
      rcases List.mem_cons.mp hx with hx | hx
      · exact hx ▸ hba
      · exact le_trans (h.1 x hx) hba
    · rename_i hba
      refine List.pairwise_cons.mpr ⟨?_, ih h.2⟩
      intro x hx
      rcases List.mem_cons.mp ((insertDesc_perm f a t).mem_iff.mp hx) with hx | hx
      · exact hx ▸ le_of_lt (lt_of_not_le hba)
      · exact h.1 x hx

theorem pairwise_sortDescBy (f : α → ℚ) (l : List α) :
    List.Pairwise (fun x y => f y ≤ f x) (sortDescBy f l) := by
  induction l with
  | nil => simp [sortDescBy]
  | cons a t ih => exact pairwise_insertDesc f a ih

/-- Invariant preservation along `List.foldl`. -/
theorem foldl_preserves {α β} {P : β → Prop} {step : β → α → β} (l : List α)
    (h : ∀ b a, a ∈ l → P b → P (step b a)) (b : β) (hb : P b) :
    P (l.foldl step b) := by
  induction l generalizing b with
  | nil => exact hb
  | cons a t ih =>
    exact ih (fun b' a' ha' => h b' a' (List.mem_cons_of_mem a ha'))
      (step b a) (h b a (List.mem_cons_self a t) hb)

/-- Shape of step 7 of `hybrid_search`: sort descending, truncate, floor. -/
theorem resultsPipeline (pairs : List (Nat × ℚ)) (k : Nat) (c : ℚ) (hc : 0 ≤ c)
    (mk : Nat × ℚ → RDoc) (hmk : ∀ p, (mk p).score = p.2) :
    List.Pairwise (fun a b : RDoc => b.score ≤ a.score)
      ((((sortDescBy Prod.snd pairs).take k).filter (fun p => !(p.2 < c))).map mk) ∧
    ((((sortDescBy Prod.snd pairs).take k).filter (fun p => !(p.2 < c))).map mk).length ≤ k ∧
    ∀ x ∈ (((sortDescBy Prod.snd pairs).take k).filter (fun p => !(p.2 < c))).map mk,
      c ≤ x.score ∧ 0 ≤ x.score := by
  refine ⟨?_, ?_, ?_⟩
  · have hp := pairwise_sortDescBy (Prod.snd : Nat × ℚ → ℚ) pairs
    have hp2 : List.Pairwise (fun x y : Nat × ℚ => y.2 ≤ x.2)
        (((sortDescBy Prod.snd pairs).take k).filter (fun p => !(p.2 < c))) :=
      List.Pairwise.sublist ((List.filter_sublist _).trans (List.take_sublist k _)) hp
    exact List.pairwise_map.mpr (hp2.imp (fun h => by rw [hmk, hmk]; exact h))
  · calc ((((sortDescBy Prod.snd pairs).take k).filter _).map mk).length
        = (((sortDescBy Prod.snd pairs).take k).filter (fun p => !(p.2 < c))).length :=
          List.length_map _ _
      _ ≤ ((sortDescBy Prod.snd pairs).take k).length := List.length_filter_le _ _
      _ ≤ k := List.length_take_le k _
  · intro x hx
    rcases List.mem_map.mp hx with ⟨p, hp, hpx⟩
    have hpc := (List.mem_filter.mp hp).2
    simp only [Bool.not_eq_true', decide_eq_false_iff_not, not_lt] at hpc
    subst hpx
    rw [hmk]
    exact ⟨hpc, le_trans hc hpc⟩

/-- C2: Every list returned by `hybrid_search` is sorted in descending
combined score, has length at most `top_k`, and every returned candidate's
combined score is at least half the configured minimum-similarity threshold
(in particular non-negative — and, scores being rationals, finite). -/
theorem hybrid_search_sorted_bounded_floored (props : List Doc) (sem : Nat → ℚ)
    (query : String) (top_k : Nat) :
    List.Pairwise (fun a b : RDoc => b.score ≤ a.score)
      (hybridSearchPure props sem query top_k) ∧
    (hybridSearchPure props sem query top_k).length ≤ top_k ∧
    ∀ x ∈ hybridSearchPure props sem query top_k,
      MIN_SIMILARITY_THRESHOLD * 0.5 ≤ x.score ∧ 0 ≤ x.score := by
  simp only [hybridSearchPure]
  exact resultsPipeline _ top_k _ (by norm_num [MIN_SIMILARITY_THRESHOLD]) _ (fun p => rfl)

/-- C1 (amended): the candidate pool of `hybrid_search` is never emptied by
the filtering step — when the extracted `FilterSet` matches zero documents
the pool falls back to the whole corpus — so for a non-empty corpus the
scoring stage always receives at least one candidate. -/
theorem hybrid_candidate_pool_never_empty (props : List Doc) (query : String)
    (h : props ≠ []) : candidatePool props (extractFilters query) ≠ [] := by
  have hn : List.range props.length ≠ [] := by
    simpa [List.range_eq_nil] using (List.length_pos.mpr h).ne'
  simp only [candidatePool]
  split
  · exact hn
  · split
    · exact hn
    · rename_i hm
      simpa [List.isEmpty_iff] using hm

theorem hybrid_candidate_pool_never_empty_witness :
    (candidatePool demoProps1 (extractFilters "zzz")).isEmpty = false := by
  have h := hybrid_candidate_pool_never_empty demoProps1 "zzz" (by decide)
  simpa [List.isEmpty_iff] using h

/-- C1 (counterexample to the claim as stated): on the one-document corpus
`demoProps1`, the query `"zzz"` (no extracted filters, no keyword hits) with
all semantic scores 0 — attainable, since an inner product of normalized
vectors can be 0 — yields an empty hybrid result list: the returned count 0
is below `min 5 corpus_size = 1`, because every candidate fell under the
half-threshold floor of step 7. -/
theorem hybrid_min_results_counterexample :
    (hybridSearchPure demoProps1 (fun _ => 0) "zzz" 20).length = 0 ∧
    demoProps1.length = 1 := by decide

/-- C6: `expand_query` returns between 1 and 4 queries, the first being
exactly the original query, with no duplicates. -/
theorem expand_query_shape (query : String) :
    1 ≤ (expandQuery query).length ∧ (expandQuery query).length ≤ 4 ∧
    (expandQuery query).head? = some query ∧ (expandQuery query).Nodup := by
  have inv : ∀ acc : List String, ∀ s, acc.head? = some query ∧ acc.Nodup →
      (addCandidate acc s).head? = some query ∧ (addCandidate acc s).Nodup := by
    intro acc s hacc
    unfold addCandidate
    split
    · exact hacc
    · rename_i hs
      obtain ⟨hh, hnd⟩ := hacc
      cases acc with
      | nil => simp at hh
      | cons a t =>
        obtain rfl : a = query := by simpa using hh
        refine ⟨by simp, ?_⟩
        refine List.nodup_append.mpr ⟨hnd, List.nodup_singleton s, ?_⟩
        intro x hx hx2
        rw [List.mem_singleton] at hx2
        exact hs (hx2 ▸ hx)
  have main : ∀ l : List String, l.head? = some query ∧ l.Nodup →
      1 ≤ (l.take 4).length ∧ (l.take 4).length ≤ 4 ∧
      (l.take 4).head? = some query ∧ (l.take 4).Nodup := by
    intro l hl
    obtain ⟨hh, hnd⟩ := hl
    cases l with
    | nil => simp at hh
    | cons a t =>
      obtain rfl : a = query := by simpa using hh
      exact ⟨by simp, List.length_take_le 4 _, by simp,
        List.Pairwise.sublist (List.take_sublist 4 _) hnd⟩
  simp only [expandQuery]
  refine main _ (@foldl_preserves _ _
    (fun acc : List String => acc.head? = some query ∧ acc.Nodup) _ LOCATION_ALIASES ?_ _
    (@foldl_preserves _ _
      (fun acc : List String => acc.head? = some query ∧ acc.Nodup) _ SYNONYMS ?_ [query]
      ⟨rfl, List.nodup_singleton query⟩))
  · intro b p _ hb
    split
    · exact inv b _ hb
    · exact hb
  · intro b p _ hb
    split
    · exact foldl_preserves _ (fun b' s _ hb' => inv b' _ hb') b hb
    · exact hb

/-- C4: calling `hybrid_search` or `semantic_search` on a store whose index
has not been built fails with the not-initialized error and returns no
results; a fresh store starts uninitialized, a successful `build_index`
sets the flag, and among the store's operations only `build_index` can turn
the flag on. -/
theorem search_requires_initialized_index (embed : Embedder) (s : VectorStore)
    (q : String) (k : Nat) (docs : List Doc) (op : StoreOp)
    (h : s.isInitialized = false) :
    hybridSearchExc embed s q k = .error .notInitialized ∧
    semanticSearchExc embed s q k = .error .notInitialized ∧
    (buildIndex docs s).isInitialized = true ∧
    VectorStore.mkNew.isInitialized = false ∧
    ((applyOp embed op s).1.isInitialized = true →
      s.isInitialized = true ∨ ∃ ds, op = .build ds) := by
  refine ⟨?_, ?_, rfl, rfl, ?_⟩
  · simp [hybridSearchExc, h]
  · simp [semanticSearchExc, h]
  · cases op with
    | build ds => exact fun _ => Or.inr ⟨ds, rfl⟩
    | hybrid q' k' => exact fun h2 => Or.inl h2
    | semantic q' k' => exact fun h2 => Or.inl h2
    | keyword q' k' => exact fun h2 => Or.inl h2

theorem search_requires_initialized_index_witness :
    hybridSearchExc demoEmbedOk VectorStore.mkNew "villa" 5 = .error .notInitialized ∧
    semanticSearchExc demoEmbedOk VectorStore.mkNew "villa" 5 = .error .notInitialized := by
  have h := search_requires_initialized_index demoEmbedOk VectorStore.mkNew
    "villa" 5 [] (.build []) rfl
  exact ⟨h.1, h.2.1⟩

/-- C5 (amended): when embedding the query fails during a per-query search
call, the failure propagates to the caller as an error — `hybrid_search`
wraps `embed_query` in no handler — and no result list is produced; there
is no lexical-only fallback. -/
theorem embedding_failure_propagates (embed : Embedder) (s : VectorStore)
    (q : String) (k : Nat) (e : EmbedError)
    (hs : s.isInitialized = true) (he : embed q = .error e) :
    hybridSearchExc embed s q k = .error (.embeddingFailure e) ∧
    semanticSearchExc embed s q k = .error (.embeddingFailure e) := by
  constructor
  · simp [hybridSearchExc, hs, he]
  · simp [semanticSearchExc, hs, he]

theorem embedding_failure_propagates_witness :
    hybridSearchExc demoEmbedFail demoStore1 "villa" 5 =
      .error (.embeddingFailure .providerFailure) ∧
    semanticSearchExc demoEmbedFail demoStore1 "villa" 5 =
      .error (.embeddingFailure .providerFailure) :=
  embedding_failure_propagates demoEmbedFail demoStore1 "villa" 5
    .providerFailure rfl rfl

/-- C5 (counterexample to the claim as stated): on an initialized store, a
failing embedder makes `hybrid_search` return the propagated error — no
result list at all, hence no observable lexical-only fallback output. -/
theorem embedding_failure_no_fallback_counterexample :
    (hybridSearchExc demoEmbedFail demoStore1 "villa" 5).toOption = none ∧
    hybridSearchExc demoEmbedFail demoStore1 "villa" 5 =
      .error (.embeddingFailure .providerFailure) := by decide

/-- C10: a query containing no keyword from any intent table classifies as
`("general", 0.5)`, and since refinement requires `confidence < 0.5`
strictly, such a query can never set the refine flag. -/
theorem keywordless_query_general_intent_no_refine (q : String) (st : SearchState)
    (H : ∀ p ∈ INTENTS, ∀ kw ∈ p.2, pyIn kw (pyLower q) = false) :
    classifyIntent q = ("general", 1/2) ∧
    (rankNode { st with confidence := (classifyIntent q).2 }).shouldRefine = false := by
  have hzero : ∀ p ∈ INTENTS, (p.2.filter (fun kw => pyIn kw (pyLower q))).length = 0 := by
    intro p hp
    rw [List.length_eq_zero]
    exact List.filter_eq_nil_iff.mpr (fun kw hkw => by simp [H p hp kw hkw])
  have hscores : (INTENTS.foldl (fun (acc : List (String × ℚ)) p =>
      let c := (p.2.filter (fun kw => pyIn kw (pyLower q))).length
      if 0 < c then acc ++ [(p.1, (c : ℚ) / p.2.length)] else acc) []) = [] :=
    @foldl_preserves _ _ (fun acc : List (String × ℚ) => acc = []) _ INTENTS
      (fun b p hp hb => by simp [hzero p hp, hb]) [] rfl
  have hcls : classifyIntent q = ("general", 0.5) := by
    simp only [classifyIntent, hscores]
  constructor
  · rw [hcls]; norm_num
  · rw [hcls]
    simp only [rankNode]
    have : decide ((0.5 : ℚ) < 0.5) = false := by norm_num
    simp [this]

theorem keywordless_query_general_intent_no_refine_witness :
    classifyIntent "zzz" = ("general", 1/2) ∧
    (rankNode { (default : SearchState) with
        confidence := (classifyIntent "zzz").2 }).shouldRefine = false :=
  keywordless_query_general_intent_no_refine "zzz" default (by decide)

theorem loopBody_iteration (env : Env) (st : SearchState) :
    (loopBody env st).iteration = st.iteration + 1 := rfl

theorem loopBody_refine_bound (env : Env) (st : SearchState)
    (h : (loopBody env st).shouldRefine = true) : st.iteration + 1 < 2 := by
  simp only [loopBody, rankNode, filterNode, executeNode, Bool.and_eq_true,
    decide_eq_true_eq] at h
  omega

theorem searchLoop_stops (env : Env) (st : SearchState) (fuel : Nat)
    (h : 1 ≤ st.iteration) (hf : 1 ≤ fuel) :
    searchLoop fuel env st = some (loopBody env st, 1) := by
  cases fuel with
  | zero => omega
  | succ f =>
    have hsr : (loopBody env st).shouldRefine = false := by
      cases hsr : (loopBody env st).shouldRefine
      · rfl
      · have := loopBody_refine_bound env st hsr
        omega
    simp [searchLoop, hsr]

theorem searchLoop_bound (env : Env) (st : SearchState) (fuel : Nat)
    (h0 : st.iteration = 0) (hf : 2 ≤ fuel) :
    ∃ r, searchLoop fuel env st = some r ∧ 1 ≤ r.2 ∧ r.2 ≤ 2 := by
  cases fuel with
  | zero => omega
  | succ f =>
    by_cases hsr : (loopBody env st).shouldRefine = true
    · have hit : (loopBody env st).iteration = 1 := by
        rw [loopBody_iteration, h0]
      have hrec := searchLoop_stops env (loopBody env st) f (by omega) (by omega)
      refine ⟨(loopBody env (loopBody env st), 2), ?_, by omega, by omega⟩
      simp [searchLoop, hsr, hrec]
    · refine ⟨(loopBody env st, 1), ?_, by omega, by omega⟩
      simp [searchLoop, hsr]

/-- C3: the refine flag is set exactly when `iteration < 2`, fewer than 3
results remain and `confidence < 0.5`; every `ExecuteSearch` pass increments
`iteration`; consequently a workflow run never exhausts the graph executor's
recursion limit (it terminates, `isSome`), performs between 1 and 2
`ExecuteSearch` passes — within 2 extra refine passes beyond the first —
and ends by applying the terminal `FormatOutput` node. -/
theorem workflow_refine_loop_bounded (env : Env) (st : SearchState) (q : String) :
    ((rankNode st).shouldRefine = true ↔
      (st.iteration < 2 ∧ st.refinedResults.length < 3 ∧ st.confidence < 0.5)) ∧
    (executeNode env st).iteration = st.iteration + 1 ∧
    (runWorkflow env q).isSome = true ∧
    1 ≤ ((runWorkflow env q).map Prod.snd).getD 0 ∧
    ((runWorkflow env q).map Prod.snd).getD 3 ≤ 2 ∧
    runWorkflow env q = (searchLoop RECURSION_LIMIT env
        (expandNode (analyzeNode { query := q }))).map
      (fun r => (formatNode (suggestionsNode r.1), r.2)) := by
  obtain ⟨r, hr, hr1, hr2⟩ := searchLoop_bound env
    (expandNode (analyzeNode { query := q })) RECURSION_LIMIT rfl (by decide)
  refine ⟨?_, rfl, ?_, ?_, ?_, rfl⟩
  · simp only [rankNode, Bool.and_eq_true, decide_eq_true_eq,
      length_sortDescBy, List.length_map]
    tauto
  · simp [runWorkflow, hr]
  · simp [runWorkflow, hr, hr1]
  · simp [runWorkflow, hr, hr2]

/-- Cauchy–Schwarz: the inner product of two unit vectors is at most 1. -/
theorem dotp_le_of_unit (d : Nat) (u v : Fin d → ℚ)
    (hu : dotp d u u = 1) (hv : dotp d v v = 1) : dotp d u v ≤ 1 := by
  have cs := Finset.sum_mul_sq_le_sq_mul_sq Finset.univ u v
  have hu2 : (∑ i, u i ^ 2) = 1 := by simpa [dotp, sq] using hu
  have hv2 : (∑ i, v i ^ 2) = 1 := by simpa [dotp, sq] using hv
  rw [hu2, hv2, mul_one] at cs
  simp only [dotp]
  nlinarith [cs]

/-- C7: after building the index, searching with `k = 1` using the embedding
of document `i`'s own generated descriptive text returns a hit whose score
equals document `i`'s own score (which is 1, the self inner product of a
normalized vector), i.e. document `i` is the top or tied-top hit; the
`k = 1` search returns exactly one hit. -/
theorem round_trip_self_retrieval (d : Nat) (docs : List Doc)
    (embedText : String → Fin d → ℚ) (i : Nat) (hi : i < docs.length)
    (hnorm : ∀ p ∈ docs, dotp d (embedText (createDocumentText p))
      (embedText (createDocumentText p)) = 1) :
    (indexSearch d (buildVectors d embedText docs)
      (embedText (createDocumentText docs[i])) 1).length = 1 ∧
    ∀ p ∈ indexSearch d (buildVectors d embedText docs)
        (embedText (createDocumentText docs[i])) 1,
      p.2 = dotp d (embedText (createDocumentText docs[i]))
        (embedText (createDocumentText docs[i])) ∧ p.2 = 1 := by
  have hq1 : dotp d (embedText (createDocumentText docs[i]))
      (embedText (createDocumentText docs[i])) = 1 :=
    hnorm docs[i] (List.getElem_mem hi)
  set q := embedText (createDocumentText docs[i]) with hqdef
  set vecs := buildVectors d embedText docs with hvecs
  set scores := vecs.map (dotp d q) with hscores
  have hlenv : vecs.length = docs.length := List.length_map _ _
  have hlens : scores.length = docs.length := by
    rw [hscores, List.length_map, hlenv]
  -- every score is at most 1
  have hub : ∀ x ∈ scores, x ≤ 1 := by
    intro x hx
    rcases List.mem_map.mp hx with ⟨v, hv, rfl⟩
    rcases List.mem_map.mp (hvecs ▸ hv) with ⟨p, hp, rfl⟩
    exact dotp_le_of_unit d q _ hq1 (hnorm p hp)
  -- document i's own score is 1
  have hvlen : i < vecs.length := by omega
  have hslen : i < scores.length := by omega
  have hvi : vecs[i] = q := by
    simp only [hvecs, buildVectors, List.getElem_map, hqdef]
  have hscore_i : scores[i] = 1 := by
    calc scores[i] = dotp d q vecs[i] := by
          simp only [hscores, List.getElem_map]
      _ = 1 := by rw [hvi, hq1]
  have hmem_i : ((i, (1 : ℚ)) : Nat × ℚ) ∈ scores.enum := by
    have h1 : i < scores.enum.length := by
      rw [List.enum_length]; omega
    have h2 : scores.enum[i] = (i, scores[i]) := List.getElem_enum _ _ _
    have h3 := List.getElem_mem h1
    rw [h2, hscore_i] at h3
    exact h3
  set L := sortDescBy Prod.snd scores.enum with hL
  have hlenL : L.length = docs.length := by
    rw [hL, length_sortDescBy, List.enum_length, hlens]
  have hmemL : ((i, (1 : ℚ)) : Nat × ℚ) ∈ L := mem_sortDescBy.mpr hmem_i
  have hLub : ∀ x ∈ L, x.2 ≤ 1 := by
    intro x hx
    have hx2 : x ∈ scores.enum := mem_sortDescBy.mp hx
    obtain ⟨x1, x2⟩ := x
    obtain ⟨-, h2, h3⟩ := List.mem_enumFrom (by simpa [List.enum] using hx2)
    rw [Nat.zero_add] at h2
    show x2 ≤ 1
    rw [h3]
    exact hub _ (List.getElem_mem (by omega))
  have hsort := pairwise_sortDescBy (Prod.snd : Nat × ℚ → ℚ) scores.enum
  rw [← hL] at hsort
  -- the search output is `L.take 1`
  have hout : indexSearch d vecs q 1 = L.take 1 := rfl
  constructor
  · rw [hout]
    rw [List.length_take, hlenL]
    omega
  · intro p hp
    rw [hout] at hp
    cases hLc : L with
    | nil =>
      rw [hLc] at hp
      simp at hp
    | cons a t =>
      rw [hLc] at hp
      simp only [List.take_succ_cons, List.take_zero, List.mem_singleton] at hp
      subst hp
      have hub_a : p.2 ≤ 1 := hLub p (by rw [hLc]; exact List.mem_cons_self p t)
      have hlb_a : 1 ≤ p.2 := by
        rw [hLc] at hmemL
        rcases List.mem_cons.mp hmemL with h | h
        · rw [← h]
        · rw [hLc] at hsort
          have := (List.pairwise_cons.mp hsort).1 _ h
          simpa using this
      have : p.2 = 1 := le_antisymm hub_a hlb_a
      exact ⟨by rw [this, hq1], this⟩

theorem round_trip_self_retrieval_witness :
    (indexSearch 2 (buildVectors 2 demoEmbed2 demoDocs2)
      (demoEmbed2 (createDocumentText demoDocs2[1])) 1).length = 1 :=
  (round_trip_self_retrieval 2 demoDocs2 demoEmbed2 1 (by decide) (by decide)).1

/-- The aliasing view inside `_filter_results`: because the surviving dicts
are mutated in place, the `r not in filtered` fallback test is equivalent to
keeping exactly the results that failed the four hard predicates, provided
no incoming result already carries a `_filter_matches` key. -/
theorem fallback_filter_eq (f : Filters) :
    ∀ (L filtered : List RDoc),
      (∀ x ∈ filtered, x.filterMatches.isSome = true) →
      (∀ r ∈ L, hardMatch f r = true → annotateMatch f r ∈ filtered) →
      (∀ r ∈ L, r.filterMatches = none) →
      (L.map (fun r => if hardMatch f r then annotateMatch f r else r)).filter
          (fun r => !(filtered.contains r)) =
        L.filter (fun r => !(hardMatch f r)) := by
  intro L
  induction L with
  | nil => intro filtered _ _ _; rfl
  | cons a t ih =>
    intro filtered hf hmem hnone
    have htail := ih filtered hf
      (fun r hr => hmem r (List.mem_cons_of_mem a hr))
      (fun r hr => hnone r (List.mem_cons_of_mem a hr))
    by_cases ha : hardMatch f a = true
    · have hin : filtered.contains (annotateMatch f a) = true :=
        List.elem_iff.mpr (hmem a (List.mem_cons_self a t) ha)
      simp only [List.map_cons, List.filter_cons, ha, if_pos, hin,
        Bool.not_true, htail]
      simp
    · have hnin : filtered.contains a = false := by
        cases hc : filtered.contains a
        · rfl
        · have hmemf : a ∈ filtered := List.elem_iff.mp hc
          have h1 := hf a hmemf
          have h2 := hnone a (List.mem_cons_self a t)
          rw [h2] at h1
          simp at h1
      simp only [List.map_cons, List.filter_cons, ha, if_neg, Bool.not_eq_true,
        hnin, Bool.not_false, htail]

/-- C8 (amended): with a non-empty extracted `FilterSet`, `FilterResults`
keeps exactly the merged results satisfying the `type`, `category`, min
`beds` and `location` predicates — the required-`features` predicate is not
re-applied — annotates each survivor with `filter_match_count` equal to the
number of those four predicate kinds present in the `FilterSet`, and when
fewer than 5 survive while non-matching results exist, backfills up to 5
total with the non-matching results of highest raw score (an empty
`FilterSet` passes the results through unchanged). -/
theorem filter_results_four_predicates_backfill (results : List RDoc)
    (f : Filters) (h : ∀ r ∈ results, r.filterMatches = none) :
    filterResults results f =
      if f.isEmpty then results
      else
        (results.filter (hardMatch f)).map (annotateMatch f) ++
          (if ((results.filter (hardMatch f)).map (annotateMatch f)).length < 5 &&
              ((results.filter (hardMatch f)).map (annotateMatch f)).length <
                results.length then
            (sortDescBy RDoc.score (results.filter (fun r => !(hardMatch f r)))).take
              (5 - ((results.filter (hardMatch f)).map (annotateMatch f)).length)
          else []) := by
  have hfeq := fallback_filter_eq f results
    ((results.filter (hardMatch f)).map (annotateMatch f))
    (by
      intro x hx
      rcases List.mem_map.mp hx with ⟨y, _, rfl⟩
      simp [annotateMatch])
    (fun r hr hm => List.mem_map_of_mem _ (List.mem_filter.mpr ⟨hr, hm⟩))
    h
  simp only [filterResults]
  split
  · rfl
  · rw [hfeq]
    split
    · rfl
    · simp

/-- C8 (amended, instantiated): on six featureless results with the
`features`-only `FilterSet` extracted from `"piscine"`, the node keeps all
six (every one passes the four re-applied predicates). -/
theorem filter_results_four_predicates_backfill_witness :
    filterResults cexResults (extractFilters "piscine") =
      (cexResults.filter (hardMatch (extractFilters "piscine"))).map
        (annotateMatch (extractFilters "piscine")) := by
  have h := filter_results_four_predicates_backfill cexResults
    (extractFilters "piscine") (by decide)
  rw [h]
  decide

/-- C8 (counterexample to the claim as stated): the `FilterSet` extracted
from `"piscine"` is `{features: [Piscine]}`; on six results none of which
has that feature, the node as the claim describes it would keep none and
backfill to 5, but `_filter_results` keeps all 6 — the `features`
predicate is not re-applied. -/
theorem filter_results_features_counterexample :
    (filterResults cexResults (extractFilters "piscine")).length = 6 ∧
    (filterResultsClaim cexResults (extractFilters "piscine")).length = 5 := by
  decide

theorem enum_fst_lt {l : List α} {p : Nat × α} (hp : p ∈ l.enum) :
    p.1 < l.length := by
  obtain ⟨p1, p2⟩ := p
  obtain ⟨-, h2, -⟩ := List.mem_enumFrom (by simpa [List.enum] using hp)
  omega

theorem applyFilters_lt (props : List Doc) (f : Filters) :
    ∀ i ∈ applyFilters props f, i < props.length := by
  intro i hi
  simp only [applyFilters] at hi
  rcases List.mem_map.mp hi with ⟨p, hp, rfl⟩
  exact enum_fst_lt (List.mem_filter.mp hp).1

theorem candidatePool_lt (props : List Doc) (f : Filters) :
    ∀ i ∈ candidatePool props f, i < props.length := by
  intro i hi
  simp only [candidatePool] at hi
  split at hi
  · exact List.mem_range.mp hi
  · split at hi
    · exact List.mem_range.mp hi
    · exact applyFilters_lt props f i hi

theorem faissSearch_fst_lt (scores : List ℚ) (k : Nat) :
    ∀ p ∈ faissSearch scores k, p.1 < scores.length := by
  intro p hp
  exact enum_fst_lt (mem_sortDescBy.mp ((List.take_sublist k _).subset hp))

theorem rescueStep_fold_lt (n : Nat) (kw : Nat → ℚ) (semList : List (Nat × ℚ))
    (hsem : ∀ p ∈ semList, p.1 < n) (init : List (Nat × ℚ))
    (hinit : ∀ p ∈ init, p.1 < n) :
    ∀ p ∈ semList.foldl (rescueStep kw) init, p.1 < n := by
  refine @foldl_preserves _ _ (fun acc : List (Nat × ℚ) => ∀ p ∈ acc, p.1 < n) _
    semList ?_ init hinit
  intro b a ha hb
  simp only [rescueStep]
  split
  · intro p hp
    rcases List.mem_append.mp hp with hp | hp
    · exact hb p hp
    · rw [List.mem_singleton] at hp
      subst hp
      exact hsem a ha
  · exact hb

/-- Every hybrid result is a copy of a stored corpus record. -/
theorem hybridSearchPure_doc_mem (props : List Doc) (sem : Nat → ℚ)
    (query : String) (k : Nat) :
    ∀ r ∈ hybridSearchPure props sem query k, r.doc ∈ props := by
  intro r hr
  simp only [hybridSearchPure] at hr
  rcases List.mem_map.mp hr with ⟨p, hp, rfl⟩
  have hp4 := mem_sortDescBy.mp
    ((List.take_sublist k _).subset (List.mem_filter.mp hp).1)
  have hbound : p.1 < props.length := by
    refine rescueStep_fold_lt props.length _ _ ?_ _ ?_ p hp4
    · intro a ha
      have := faissSearch_fst_lt ((List.range props.length).map sem)
        props.length a ha
      simpa using this
    · intro a ha
      rcases List.mem_map.mp ha with ⟨i, hi, rfl⟩
      exact candidatePool_lt props _ i hi
  show props.getD p.1 default ∈ props
  rw [List.getD_eq_getElem props default hbound]
  exact List.getElem_mem hbound

/-- Every semantic result is a copy of a stored corpus record. -/
theorem semanticSearchPure_doc_mem (props : List Doc) (sem : Nat → ℚ)
    (k : Nat) (ms : ℚ) :
    ∀ r ∈ semanticSearchPure props sem k ms, r.doc ∈ props := by
  intro r hr
  simp only [semanticSearchPure] at hr
  rcases List.mem_map.mp hr with ⟨p, hp, rfl⟩
  have hbound : p.1 < props.length := by
    have := faissSearch_fst_lt ((List.range props.length).map sem) k p
      (List.mem_filter.mp hp).1
    simpa using this
  show props.getD p.1 default ∈ props
  rw [List.getD_eq_getElem props default hbound]
  exact List.getElem_mem hbound

theorem keywordSearch_fst_lt (query : String) (props : List Doc) (k : Nat) :
    ∀ p ∈ keywordSearch query props k, p.1 < props.length := by
  intro p hp
  simp only [keywordSearch] at hp
  have h1 := mem_sortDescBy.mp ((List.take_sublist k _).subset hp)
  have h2 := (List.mem_filter.mp h1).1
  rcases List.mem_map.mp h2 with ⟨q, hq, rfl⟩
  simpa using enum_fst_lt hq

/-- Every keyword result is a copy of a stored corpus record. -/
theorem keywordSearchMode_doc_mem (s : VectorStore) (query : String) (k : Nat) :
    ∀ r ∈ keywordSearchMode s query k, r.doc ∈ s.properties := by
  intro r hr
  simp only [keywordSearchMode] at hr
  rcases List.mem_map.mp hr with ⟨p, hp, rfl⟩
  have hbound := keywordSearch_fst_lt query s.properties k p hp
  show s.properties.getD p.1 default ∈ s.properties
  rw [List.getD_eq_getElem s.properties default hbound]
  exact List.getElem_mem hbound

theorem expansion_fold_doc_mem (env : Env) (query : String) (qs : List String)
    (init : List RDoc) (hinit : ∀ r ∈ init, r.doc ∈ env.props) :
    ∀ r ∈ qs.foldl (expansionStep env query) init, r.doc ∈ env.props := by
  refine @foldl_preserves _ _ (fun acc : List RDoc => ∀ r ∈ acc, r.doc ∈ env.props) _
    qs ?_ init hinit
  intro b a _ hb
  simp only [expansionStep]
  split
  · intro r hr
    rcases List.mem_append.mp hr with hr | hr
    · exact hb r hr
    · exact hybridSearchPure_doc_mem _ _ _ _ r hr
  · exact hb

theorem mergeStep_fold_doc_mem (props : List Doc) (expanded : List RDoc)
    (hexp : ∀ r ∈ expanded, r.doc ∈ props) (init : List RDoc)
    (hinit : ∀ r ∈ init, r.doc ∈ props) :
    ∀ r ∈ expanded.foldl mergeStep init, r.doc ∈ props := by
  refine @foldl_preserves _ _ (fun acc : List RDoc => ∀ r ∈ acc, r.doc ∈ props) _
    expanded ?_ init hinit
  intro b a ha hb
  simp only [mergeStep]
  split
  · exact hb
  · intro r hr
    rcases List.mem_append.mp hr with hr | hr
    · exact hb r hr
    · rw [List.mem_singleton] at hr
      subst hr
      exact hexp a ha

theorem executeNode_doc_mem (env : Env) (st : SearchState) :
    ∀ r ∈ (executeNode env st).searchResults, r.doc ∈ env.props := by
  simp only [executeNode]
  exact mergeStep_fold_doc_mem env.props _
    (expansion_fold_doc_mem env st.query _ [] (by simp)) _
    (hybridSearchPure_doc_mem _ _ _ _)

theorem filterResults_doc_sub (rs : List RDoc) (f : Filters) :
    ∀ r ∈ filterResults rs f, ∃ r₀ ∈ rs, r.doc = r₀.doc := by
  intro r hr
  simp only [filterResults] at hr
  split at hr
  · exact ⟨r, hr, rfl⟩
  · split at hr
    · rcases List.mem_append.mp hr with hr | hr
      · rcases List.mem_map.mp hr with ⟨y, hy, rfl⟩
        exact ⟨y, (List.mem_filter.mp hy).1, rfl⟩
      · have h3 := mem_sortDescBy.mp ((List.take_sublist _ _).subset hr)
        have h4 := (List.mem_filter.mp h3).1
        rcases List.mem_map.mp h4 with ⟨y, hy, rfl⟩
        by_cases hm : hardMatch f y = true
        · exact ⟨y, hy, by simp [hm, annotateMatch]⟩
        · exact ⟨y, hy, by simp [hm]⟩
    · rcases List.mem_map.mp hr with ⟨y, hy, rfl⟩
      exact ⟨y, (List.mem_filter.mp hy).1, rfl⟩

theorem rankNode_doc_sub (st : SearchState) :
    ∀ r ∈ (rankNode st).refinedResults, ∃ r₀ ∈ st.refinedResults, r.doc = r₀.doc := by
  intro r hr
  simp only [rankNode] at hr
  rcases List.mem_map.mp (mem_sortDescBy.mp hr) with ⟨y, hy, rfl⟩
  exact ⟨y, hy, rfl⟩

theorem loopBody_doc_mem (env : Env) (st : SearchState) :
    ∀ r ∈ (loopBody env st).refinedResults, r.doc ∈ env.props := by
  intro r hr
  obtain ⟨r₁, hr₁, he₁⟩ := rankNode_doc_sub _ r hr
  obtain ⟨r₂, hr₂, he₂⟩ := filterResults_doc_sub _ _ r₁ hr₁
  rw [he₁, he₂]
  exact executeNode_doc_mem env st r₂ hr₂

theorem searchLoop_doc_mem (fuel : Nat) (env : Env) (st : SearchState) :
    ∀ res, searchLoop fuel env st = some res →
      ∀ r ∈ res.1.refinedResults, r.doc ∈ env.props := by
  induction fuel generalizing st with
  | zero => intro res h; simp [searchLoop] at h
  | succ f ih =>
    intro res h
    simp only [searchLoop] at h
    split at h
    · rcases Option.map_eq_some'.mp h with ⟨r', hr', rfl⟩
      exact fun r hr => ih _ r' hr' r hr
    · rw [Option.some_inj] at h
      subst h
      exact loopBody_doc_mem env st

theorem runWorkflow_doc_mem (env : Env) (q : String) :
    ∀ x ∈ ((runWorkflow env q).getD ({ query := q }, 0)).1.finalResults,
      x.doc ∈ env.props := by
  intro x hx
  cases hw : runWorkflow env q with
  | none =>
    rw [hw] at hx
    exact absurd hx (List.not_mem_nil x)
  | some r =>
    rw [hw] at hx
    simp only [runWorkflow] at hw
    rcases Option.map_eq_some'.mp hw with ⟨r', hr', rfl⟩
    have hx2 : x ∈ (suggestionsNode r'.1).refinedResults :=
      (List.take_sublist 20 _).subset hx
    exact searchLoop_doc_mem RECURSION_LIMIT env _ r' hr' x hx2

/-- C9: search operations do not mutate the stored corpus — each returns the
store unchanged, so a repeated call on the store returned by the first call
yields the identical ordered result list — and every result record (from
`hybrid_search`, `semantic_search`, keyword search, or the workflow's final
output) is a copy built from a record of the stored corpus. -/
theorem search_preserves_corpus (embed : Embedder) (s : VectorStore)
    (q1 q2 : String) (k : Nat) (env : Env) (query : String)
    (l l2 : List RDoc) (r r2 r3 x : RDoc)
    (hok : hybridSearchExc embed s q1 k = .ok l) (hr : r ∈ l)
    (hok2 : semanticSearchExc embed s q1 k = .ok l2) (hr2 : r2 ∈ l2)
    (hr3 : r3 ∈ keywordSearchMode s q2 k)
    (hx : x ∈ ((runWorkflow env query).getD ({ query := query }, 0)).1.finalResults) :
    (applyOp embed (.hybrid q1 k) s).1 = s ∧
    (applyOp embed (.semantic q1 k) s).1 = s ∧
    (applyOp embed (.keyword q2 k) s).1 = s ∧
    (applyOp embed (.hybrid q1 k) (applyOp embed (.hybrid q1 k) s).1).2 =
      (applyOp embed (.hybrid q1 k) s).2 ∧
    (applyOp embed (.semantic q1 k) (applyOp embed (.semantic q1 k) s).1).2 =
      (applyOp embed (.semantic q1 k) s).2 ∧
    (applyOp embed (.keyword q2 k) (applyOp embed (.keyword q2 k) s).1).2 =
      (applyOp embed (.keyword q2 k) s).2 ∧
    r.doc ∈ s.properties ∧ r2.doc ∈ s.properties ∧ r3.doc ∈ s.properties ∧
    x.doc ∈ env.props := by
  refine ⟨rfl, rfl, rfl, rfl, rfl, rfl, ?_, ?_, ?_, ?_⟩
  · simp only [hybridSearchExc] at hok
    split at hok
    · exact absurd hok (by simp)
    · split at hok
      · exact absurd hok (by simp)
      · rw [Except.ok.injEq] at hok
        subst hok
        exact hybridSearchPure_doc_mem _ _ _ _ r hr
  · simp only [semanticSearchExc] at hok2
    split at hok2
    · exact absurd hok2 (by simp)
    · split at hok2
      · exact absurd hok2 (by simp)
      · rw [Except.ok.injEq] at hok2
        subst hok2
        exact semanticSearchPure_doc_mem _ _ _ _ r2 hr2
  · exact keywordSearchMode_doc_mem s q2 k r3 hr3
  · exact runWorkflow_doc_mem env query x hx

theorem search_preserves_corpus_witness :
    demoHybridR.doc ∈ demoStore1.properties ∧
    demoWfR.doc ∈ demoEnv.props ∧
    (applyOp demoEmbedOk (.hybrid "zzz" 5) demoStore1).1 = demoStore1 := by
  have h := search_preserves_corpus demoEmbedOk demoStore1 "zzz" "maison" 5
    demoEnv "zzz" [demoHybridR] [demoSemR] demoHybridR demoSemR demoKwR demoWfR
    (by decide) (by decide) (by decide) (by decide) (by decide) (by decide)
  exact ⟨h.2.2.2.2.2.2.1, h.2.2.2.2.2.2.2.2.2, h.1⟩

end Vestgency
